import Mathlib

/-!
Shallow embedding of `src/main.go` of the go_news_rss repository: an RSS
aggregator that periodically fetches configured feeds, parses them with
Go's `encoding/xml`, appends each item to a SQLite table, and serves the
most recent `count` rows at `GET /api/news/{count}`.

Modelling conventions:
- The SQLite table `rss` is modelled as a `List Row` in insertion order
  (the `id` AUTOINCREMENT column orders rows by insertion).  The
  `title`, `description`, `link` columns are declared `TEXT` (TEXT
  affinity): a bound string is stored verbatim.  The `pubDate` column is
  declared `DATETIME` (main.go:55), which under SQLite's affinity rules
  (no INT/CHAR/CLOB/TEXT/BLOB/REAL/FLOA/DOUB substring) has NUMERIC
  affinity: a bound string that is a well-formed numeric literal is
  converted on insert — a pure integer literal within the signed 64-bit
  range is stored as an INTEGER, any other numeric literal as a REAL —
  and only non-numeric text is stored verbatim as TEXT.  This conversion
  is modelled by `applyNumericAffinity`; the REAL case carries its
  source text with the IEEE-754 value deliberately left abstract
  (floating point), and every theorem below keeps real-literal
  `pubDate` text out of scope by hypothesis or by concrete input.
- `SELECT ... ORDER BY pubDate DESC LIMIT ?` sorts the rows by the
  stored `pubDate` values descending under SQLite's value order
  (`sqlLe`): numerics compare numerically and sort before all text;
  text compares under the BINARY collation, byte order of UTF-8, which
  coincides with Lean's lexicographic `String` order by code point.
  Per SQLite's LIMIT semantics, a negative limit means "no upper
  bound".  Reading a row back (`rows.Scan` into the Go `Item` struct)
  formats a stored INTEGER in decimal (`scanString`).
- Go's `strconv.Atoi` is modelled by `goAtoi`: optional sign, one or more
  ASCII digits, result within the signed 64-bit range; anything else is
  an error (`none`).
- `encoding/xml` unmarshalling of the `RSS` struct is modelled on an
  abstract element tree `XmlNode`; a body that is not well-formed XML is
  the abstract outcome `XmlBody.malformed`.
- The network is abstracted by the outcome of `http.Get` + `ReadAll` +
  `xml.Unmarshal` for the fetched URL (`FetchOutcome`).  Note that Go's
  `http.Get` returns a `nil` error for non-2xx responses; such a response
  is `FetchOutcome.gotBody status body` and `fetchRSS` — like the source,
  which never reads `resp.StatusCode` — ignores `status`.
-/

namespace NewsRss

/-- Mirrors Go struct `Item` (main.go:33-38): the four text fields of one
RSS item / one row of the `rss` table. -/
structure Item where
  title : String
  description : String
  link : String
  pubDate : String
deriving DecidableEq, BEq, Repr

/-- Mirrors the anonymous Go struct `RSS.Channel` (main.go:27-29). -/
structure Channel where
  items : List Item
deriving DecidableEq, Repr

/-- Mirrors Go struct `RSS` (main.go:26-30). -/
structure RSS where
  channel : Channel
deriving DecidableEq, Repr

/-- Mirrors Go struct `Config` (main.go:20-23). -/
structure Config where
  feeds : List String
  period : Int
deriving DecidableEq, Repr

/-! ## strconv.Atoi -/

def isAsciiDigit (c : Char) : Bool := '0' ≤ c && c ≤ '9'

def digitsVal (cs : List Char) : Nat :=
  cs.foldl (fun a c => a * 10 + (c.toNat - 48)) 0

/-- Model of Go's `strconv.Atoi` (used at main.go:132): an optional `+` or
`-` sign followed by one or more ASCII decimal digits, with the value
required to fit in a signed 64-bit `int`; every other string (including
the empty string, strings with spaces, and strings with non-digit
characters) yields an error, modelled as `none`. -/
def goAtoi (s : String) : Option Int :=
  match s.data with
  | [] => none
  | c :: rest =>
    let neg := c = '-'
    let ds := if c = '-' || c = '+' then rest else c :: rest
    if ds.isEmpty || !(ds.all isAsciiDigit) then none
    else
      let v : Int := if neg then -(digitsVal ds : Int) else (digitsVal ds : Int)
      if v < -(2 ^ 63) || (2 ^ 63 - 1) < v then none else some v

/-! ## SQLite storage of the `pubDate` column (DATETIME, NUMERIC affinity) -/

/-- Whitespace skipped by SQLite's text-to-number conversion
(`sqlite3Isspace`): space, tab, LF, VT, FF, CR. -/
def isSqlSpace (c : Char) : Bool :=
  c = ' ' || c = '\t' || c = '\n' || c.toNat = 11 || c.toNat = 12 || c = '\r'

/-- Classification of a text value bound to a NUMERIC-affinity column:
not a numeric literal (stays TEXT), a pure integer literal within the
signed 64-bit range (stored INTEGER with that value), or any other
well-formed numeric literal (stored REAL). -/
inductive NumClass where
  | notNum
  | intLit (v : Int)
  | realLit
deriving DecidableEq, Repr

/-- SQLite's numeric-literal recognition as used by NUMERIC affinity
(`sqlite3AtoF` + `sqlite3Atoi64`): optional surrounding SQL whitespace,
an optional sign, digits with an optional fractional part (at least one
digit in total), and an optional exponent that must have digits; no
other trailing characters.  A literal with no decimal point and no
exponent whose value fits a signed 64-bit integer is a pure integer;
every other well-formed literal (fraction, exponent, or out-of-range
integer) is stored as a REAL. -/
def classifyNumericText (s : String) : NumClass :=
  let cs0 := s.data.dropWhile isSqlSpace
  let (neg, cs1) :=
    match cs0 with
    | '-' :: rest => (true, rest)
    | '+' :: rest => (false, rest)
    | _ => (false, cs0)
  let d1 := cs1.takeWhile isAsciiDigit
  let r1 := cs1.dropWhile isAsciiDigit
  let (hasDot, d2, r2) :=
    match r1 with
    | '.' :: rest => (true, rest.takeWhile isAsciiDigit, rest.dropWhile isAsciiDigit)
    | _ => (false, ([] : List Char), r1)
  let (hasExp, expOk, r3) :=
    match r2 with
    | c :: rest =>
      if c = 'e' || c = 'E' then
        let rest' :=
          match rest with
          | c' :: r => if c' = '-' || c' = '+' then r else c' :: r
          | [] => ([] : List Char)
        (true, !(rest'.takeWhile isAsciiDigit).isEmpty, rest'.dropWhile isAsciiDigit)
      else (false, true, r2)
    | [] => (false, true, r2)
  let tailOk := (r3.dropWhile isSqlSpace).isEmpty
  let nDigit := d1.length + d2.length
  if !tailOk || nDigit = 0 || (hasExp && !expOk) then .notNum
  else if !hasDot && !hasExp then
    let v : Int := if neg then -(digitsVal d1 : Int) else (digitsVal d1 : Int)
    if v < -(2 ^ 63) || (2 ^ 63 - 1) < v then .realLit else .intLit v
  else .realLit

/-- A value stored in the `pubDate` column.  `real` holds the source
text of a real-literal value: its stored IEEE-754 value and read-back
formatting are deliberately not modelled (floating point), and every
theorem below keeps this case out of scope — no hypothesis-free
statement and no counterexample in this file touches it. -/
inductive SqlValue where
  | int (n : Int)
  | real (source : String)
  | text (s : String)
deriving DecidableEq, BEq, Repr

/-- The conversion NUMERIC affinity applies to a bound string on insert
into the `pubDate` column (`applyNumericAffinity` in the SQLite
sources, reached because main.go:55 declares the column `DATETIME`). -/
def applyNumericAffinity (s : String) : SqlValue :=
  match classifyNumericText s with
  | .intLit v => .int v
  | .realLit => .real s
  | .notNum => .text s

/-- What `rows.Scan` into a Go `string` field yields for a stored value:
an INTEGER is formatted in decimal (database/sql uses
`strconv.FormatInt`, which Lean's `toString` on `Int` matches), text is
returned verbatim.  The REAL branch would format the stored double; its
value is not modelled and the branch is excluded from every theorem, so
it returns the abstracted source text. -/
def scanString : SqlValue → String
  | .int n => toString n
  | .real s => s
  | .text s => s

def isTextVal : SqlValue → Bool
  | .text _ => true
  | _ => false

/-- SQLite's ORDER BY comparison on the modelled storage classes:
integers compare numerically, text compares bytewise (Lean's
lexicographic `String` order), and any numeric value sorts before any
text value.  A real value's place among the numerics depends on its
unmodelled IEEE-754 value; here reals sit between integers and text and
compare among themselves by source text, a deliberate abstraction that
keeps the relation total and transitive and that no theorem below
relies on (all either exclude reals by hypothesis or use concrete
real-free stores); real-versus-text order is faithful (numerics sort
before text). -/
def sqlLe (a b : SqlValue) : Bool :=
  match a, b with
  | .int m, .int n => decide (m ≤ n)
  | .int _, .real _ => true
  | .int _, .text _ => true
  | .real _, .int _ => false
  | .real s, .real t => decide (s ≤ t)
  | .real _, .text _ => true
  | .text _, .int _ => false
  | .text _, .real _ => false
  | .text s, .text t => decide (s ≤ t)

theorem sqlLe_total (a b : SqlValue) : sqlLe a b || sqlLe b a := by
  cases a <;> cases b <;> simp [sqlLe] <;> exact le_total _ _

theorem sqlLe_trans {a b c : SqlValue} :
    sqlLe a b → sqlLe b c → sqlLe a c := by
  cases a <;> cases b <;> cases c <;> simp [sqlLe] <;>
    exact fun h h' => le_trans h h'

/-! ## Store: the `rss` SQLite table -/

/-- One row of the `rss` table (minus the implicit `id`): the three
TEXT-affinity columns hold their bound strings verbatim, the
DATETIME-declared `pubDate` column holds the affinity-converted
value. -/
structure Row where
  title : String
  description : String
  link : String
  pubDate : SqlValue
deriving DecidableEq, BEq, Repr

/-- The row `INSERT INTO rss (title, description, link, pubDate) VALUES
(?, ?, ?, ?)` produces for one item: the first three strings verbatim,
the `pubDate` string put through the column's NUMERIC affinity. -/
def rowOfItem (item : Item) : Row :=
  { title := item.title
    description := item.description
    link := item.link
    pubDate := applyNumericAffinity item.pubDate }

/-- Mirrors `insertItem` (main.go:65-71): the `INSERT` appends one row. -/
def insertItem (db : List Row) (item : Item) : List Row :=
  db ++ [rowOfItem item]

/-- One result row of the `SELECT`, scanned back into the Go `Item`
struct (main.go:148). -/
def scanRow (r : Row) : Item :=
  { title := r.title
    description := r.description
    link := r.link
    pubDate := scanString r.pubDate }

/-- Ordering used to model `ORDER BY pubDate DESC`: row `a` comes no
later than row `b` when the stored value of `b` is at most the stored
value of `a` under SQLite's value comparison. -/
def rowDesc (a b : Row) : Prop := sqlLe b.pubDate a.pubDate = true

instance : DecidableRel rowDesc := fun _ _ => Bool.decEq _ _

instance : IsTotal Row rowDesc := by
  constructor
  intro a b
  have h := sqlLe_total b.pubDate a.pubDate
  rw [Bool.or_eq_true] at h
  exact h

instance : IsTrans Row rowDesc :=
  ⟨fun _ _ _ hab hbc => sqlLe_trans hbc hab⟩

/-- Model of the query at main.go:138: `SELECT title, description, link,
pubDate FROM rss ORDER BY pubDate DESC LIMIT ?`.  Rows are sorted by the
stored `pubDate` values descending under SQLite's value order and
scanned back into `Item`s; a negative `LIMIT` means no upper bound per
SQLite. -/
def queryRecent (limit : Int) (db : List Row) : List Item :=
  let sorted := (List.insertionSort rowDesc db).map scanRow
  if limit < 0 then sorted else sorted.take limit.toNat

/-! ## Query Service: apiHandler -/

/-- The three ways `apiHandler` (main.go:130-158) completes, carrying the
data it writes.  `okJson` holds the Go slice `items`; a Go slice is `nil`
(serialized `null`) or a list of elements, modelled as `Option (List
Item)` — the handler initializes `items := []Item\x7b\x7d`, which is
non-nil, so an empty result is `some []`, serialized `[]`. -/
inductive ApiResult where
  | badRequest (msg : String)
  | serverError (msg : String)
  | okJson (items : Option (List Item))
deriving DecidableEq, Repr

/-- Go's `append` on the handler's `items` slice. -/
def appendSlice (s : Option (List Item)) (x : Item) : Option (List Item) :=
  some (s.getD [] ++ [x])

/-- Mirrors `apiHandler` (main.go:130-158): parse the `count` path
parameter with `strconv.Atoi`; on error respond 400 `"Invalid count
parameter"` without touching the database; otherwise run the `SELECT`
and accumulate the scanned rows into the `items` slice.  The second
component counts how many database queries the call performed. -/
def apiHandler (countParam : String) (db : List Row) : ApiResult × Nat :=
  match goAtoi countParam with
  | none => (.badRequest "Invalid count parameter", 0)
  | some n => (.okJson ((queryRecent n db).foldl appendSlice (some [])), 1)

def statusCode : ApiResult → Nat
  | .badRequest _ => 400
  | .serverError _ => 500
  | .okJson _ => 200

/-! ## JSON serialization (encoding/json via json.NewEncoder(w).Encode) -/

def hexDigitChar (n : Nat) : Char :=
  if n < 10 then Char.ofNat (48 + n) else Char.ofNat (87 + n)

/-- Go `encoding/json` string escaping with the encoder's default HTML
escaping: backslash escapes for quote, backslash and the common control
characters, `\u00XX` for the remaining control characters, and unicode
escapes for the HTML-significant characters and the line and paragraph
separators. -/
def jsonEscapeChar (c : Char) : String :=
  if c = '"' then "\\\""
  else if c = '\\' then "\\\\"
  else if c = '\n' then "\\n"
  else if c = '\r' then "\\r"
  else if c = '\t' then "\\t"
  else if c.toNat < 32 then
    "\\u00" ++ String.mk [hexDigitChar (c.toNat / 16), hexDigitChar (c.toNat % 16)]
  else if c = '<' then "\\u003c"
  else if c = '>' then "\\u003e"
  else if c = '&' then "\\u0026"
  else if c.toNat = 8232 then "\\u2028"
  else if c.toNat = 8233 then "\\u2029"
  else String.singleton c

def jsonQuote (s : String) : String :=
  "\"" ++ String.join (s.data.map jsonEscapeChar) ++ "\""

/-- One `Item` as `encoding/json` renders it.  The Go struct has no json
tags, so the keys are the exported field names verbatim. -/
def itemJson (i : Item) : String :=
  "\x7b\"Title\":" ++ jsonQuote i.title ++
  ",\"Description\":" ++ jsonQuote i.description ++
  ",\"Link\":" ++ jsonQuote i.link ++
  ",\"PubDate\":" ++ jsonQuote i.pubDate ++ "\x7d"

/-- A `[]Item` slice at the top level: a nil slice renders `null`, any
non-nil slice renders a JSON array. -/
def sliceJson : Option (List Item) → String
  | none => "null"
  | some l => "[" ++ String.intercalate "," (l.map itemJson) ++ "]"

/-- The body each `ApiResult` branch writes: `http.Error` appends a
newline to the message, and `json.Encoder.Encode` appends a newline to
the JSON value. -/
def responseBody : ApiResult → String
  | .badRequest msg => msg ++ "\n"
  | .serverError msg => msg ++ "\n"
  | .okJson s => sliceJson s ++ "\n"

/-! ## encoding/xml unmarshalling of the RSS structure -/

/-- An XML element tree: an element with a name and children, or
character data. -/
inductive XmlNode where
  | elem (name : String) (children : List XmlNode)
  | text (s : String)

def childrenOf : XmlNode → List XmlNode
  | .elem _ cs => cs
  | .text _ => []

/-- The direct child elements with the given name, in document order. -/
def elemsNamed (name : String) (ns : List XmlNode) : List XmlNode :=
  ns.filter fun n =>
    match n with
    | .elem m _ => m = name
    | .text _ => false

/-- The character data directly inside an element, as `encoding/xml`
collects it for a string field (nested elements are skipped). -/
def textContent (ns : List XmlNode) : String :=
  String.join (ns.map fun n =>
    match n with
    | .text s => s
    | .elem _ _ => "")

/-- The string `encoding/xml` stores for a struct field tagged with
`name`: each matching child element overwrites the field, so the last
one wins; with no matching child the field keeps its zero value `""`. -/
def fieldText (name : String) (ns : List XmlNode) : String :=
  match (elemsNamed name ns).getLast? with
  | some n => textContent (childrenOf n)
  | none => ""

/-- Unmarshalling one `<item>` element (children `ns`) into the `Item`
struct (tags `title`, `description`, `link`, `pubDate`, main.go:33-38):
each present sub-element fills its field, each missing one stays `""`. -/
def decodeItem (ns : List XmlNode) : Item :=
  { title := fieldText "title" ns
    description := fieldText "description" ns
    link := fieldText "link" ns
    pubDate := fieldText "pubDate" ns }

/-- The `<item>` element nodes `encoding/xml` feeds into `RSS.Channel.Items`:
the direct `<item>` children of each direct `<channel>` child of the root,
in document order (repeated `<channel>` elements keep appending to the
same slice). -/
def channelItemNodes (root : XmlNode) : List XmlNode :=
  (elemsNamed "channel" (childrenOf root)).flatMap fun ch =>
    elemsNamed "item" (childrenOf ch)

/-- `xml.Unmarshal(body, &rss)` on a well-formed document with root
element `root`, for the `RSS` struct of main.go:26-30. -/
def unmarshalRSS (root : XmlNode) : RSS :=
  { channel := { items := (channelItemNodes root).map fun n => decodeItem (childrenOf n) } }

/-! ## Fetcher: fetchRSS -/

/-- Outcome of `xml.Unmarshal` on the downloaded bytes: a body that is
not well-formed XML makes `Unmarshal` return an error; a well-formed one
is the abstract element tree of its root. -/
inductive XmlBody where
  | malformed
  | wellFormed (root : XmlNode)

/-- Outcome of the network interaction of one `fetchRSS` call.  Go's
`http.Get` returns a non-nil error only for transport failures
(`getError`); an HTTP error status such as 404 still yields a response,
so it appears here as `gotBody status body` with `status` the response
status code.  `readError` models `ioutil.ReadAll` failing. -/
inductive FetchOutcome where
  | getError
  | readError (status : Nat)
  | gotBody (status : Nat) (body : XmlBody)

/-- Log lines `fetchRSS` can emit (main.go:79, 86, 93) and the insert
error log (main.go:69, never fired in this model, whose in-memory store
does not fail). -/
inductive LogEvent where
  | fetchUrlError
  | readBodyError
  | xmlUnmarshalError
  | insertError
deriving DecidableEq, Repr

/-- Mirrors `fetchRSS` (main.go:74-100): on a `http.Get` error, log and
return; on a body-read error, log and return; on an `xml.Unmarshal`
error, log and return; otherwise insert every decoded item in document
order.  The first component is the list of items passed to `insertItem`,
the second the log lines emitted.  The response status code is never
inspected — the source never reads `resp.StatusCode`. -/
def fetchRSS : FetchOutcome → List Item × List LogEvent
  | .getError => ([], [.fetchUrlError])
  | .readError _ => ([], [.readBodyError])
  | .gotBody _ .malformed => ([], [.xmlUnmarshalError])
  | .gotBody _ (.wellFormed root) => ((unmarshalRSS root).channel.items, [])

/-! ## Scheduler: pollFeeds -/

def NANOS_PER_MINUTE : Int := 60000000000

/-- Signed 64-bit wraparound, the semantics of Go `int64` arithmetic. -/
def wrap64 (n : Int) : Int := (n + 2 ^ 63) % 2 ^ 64 - 2 ^ 63

/-- The duration `time.Duration(period) * time.Minute` (main.go:118) in
nanoseconds, with Go's `int64` overflow semantics. -/
def tickerInterval (period : Int) : Int := wrap64 (period * NANOS_PER_MINUTE)

/-- Model of `time.NewTicker(d)`: it panics — `"non-positive interval
for NewTicker"` — when `d ≤ 0`, and otherwise ticks every `d`
nanoseconds, the first tick one full interval after creation.  A panic
in the `pollFeeds` goroutine is unrecovered and crashes the process. -/
def newTicker (d : Int) : Except String Int :=
  if d ≤ 0 then .error "non-positive interval for NewTicker" else .ok d

/-- The ticker construction step of `pollFeeds` (main.go:118): the
configured period is passed to `time.NewTicker` with no guard. -/
def pollFeedsTicker (c : Config) : Except String Int :=
  newTicker (tickerInterval c.period)

/-- Appending one fetched feed's items to the store: `fetchRSS` calls
`insertItem` once per decoded item, in order (main.go:97-99). -/
def insertItems (db : List Row) (items : List Item) : List Row :=
  items.foldl insertItem db

/-- One poll cycle (main.go:120-125): every configured feed is fetched
and each feed's decoded items are all appended.  `payloads` is the list
of per-feed decoded item lists.  The goroutines of one cycle may
interleave their inserts across feeds; this model fixes one order, which
the multiplicity statements below do not depend on. -/
def pollCycle (payloads : List (List Item)) (db : List Row) : List Row :=
  payloads.foldl insertItems db

/-- The store after `k` poll cycles over unchanged feed payloads. -/
def runCycles (payloads : List (List Item)) : Nat → List Row → List Row
  | 0, db => db
  | k + 1, db => runCycles payloads k (pollCycle payloads db)

/-- Number of ticks a ticker with interval `d` has delivered by time `t`
after its creation: ticks occur at `d`, `2*d`, `3*d`, ... (the first
only after one full interval). -/
def ticksWithin (d t : Nat) : Nat := t / d

/-- The store at time `t` after startup, for tick interval `d` and
unchanged per-feed payloads: the loop `for range ticker.C`
(main.go:119) runs one cycle per delivered tick and the store starts
empty. -/
def storeAt (d t : Nat) (payloads : List (List Item)) : List Row :=
  runCycles payloads (ticksWithin d t) []

/-! ## Concrete values used by witnesses and counterexamples -/

def exItemA : Item := ⟨"a", "da", "http://a", "2024-01-05"⟩
def exItemB : Item := ⟨"b", "db", "http://b", "2024-03-02"⟩
def exItemC : Item := ⟨"c", "dc", "http://c", "2024-02-10"⟩

/-- The store holding the three example items (their date-formatted
`pubDate` strings are not numeric literals, so they are stored as
text). -/
def exDb : List Row := insertItems [] [exItemA, exItemB, exItemC]

/-- Items whose `pubDate` strings are pure integer literals: the
NUMERIC affinity of the `pubDate` column stores them as INTEGERs. -/
def cxItemX : Item := ⟨"x", "dx", "http://x9", "999"⟩
def cxItemY : Item := ⟨"y", "dy", "http://y10", "1000"⟩
def cxDb : List Row := insertItems [] [cxItemX, cxItemY]

/-- An item whose `pubDate` `"01"` is an integer literal with a leading
zero: stored as INTEGER 1 and scanned back as `"1"`. -/
def cxItem01 : Item := ⟨"t", "d", "http://l", "01"⟩

/-- A well-formed RSS document with one complete item. -/
def feedDoc1 : XmlNode :=
  .elem "rss" [.elem "channel" [.elem "item"
    [.elem "title" [.text "hello"],
     .elem "description" [.text "d"],
     .elem "link" [.text "http://x"],
     .elem "pubDate" [.text "Mon, 01 Jan 2024 00:00:00 GMT"]]]]

/-- A complete `<item>` element. -/
def itemNode (t d l p : String) : XmlNode :=
  .elem "item"
    [.elem "title" [.text t],
     .elem "description" [.text d],
     .elem "link" [.text l],
     .elem "pubDate" [.text p]]

/-- An `<item>` element with no `<title>` child. -/
def itemNodeNoTitle (d l p : String) : XmlNode :=
  .elem "item"
    [.elem "description" [.text d],
     .elem "link" [.text l],
     .elem "pubDate" [.text p]]

/-- A feed with three well-formed items and a fourth missing its title. -/
def exDoc4 : XmlNode :=
  .elem "rss" [.elem "channel"
    [itemNode "t1" "d1" "l1" "p1",
     itemNode "t2" "d2" "l2" "p2",
     itemNode "t3" "d3" "l3" "p3",
     itemNodeNoTitle "d4" "l4" "p4"]]

/-! ## Helper lemmas -/

theorem foldl_appendSlice (l acc : List Item) :
    l.foldl appendSlice (some acc) = some (acc ++ l) := by
  induction l generalizing acc with
  | nil => simp
  | cons x xs ih => simp [appendSlice, ih]

theorem scanRow_rowOfItem (it : Item)
    (h : classifyNumericText it.pubDate = .notNum) :
    scanRow (rowOfItem it) = it := by
  simp [scanRow, rowOfItem, applyNumericAffinity, h, scanString]

theorem rowOfItem_pubDate_text (it : Item)
    (h : classifyNumericText it.pubDate = .notNum) :
    (rowOfItem it).pubDate = .text it.pubDate := by
  simp [rowOfItem, applyNumericAffinity, h]

theorem exists_text_of_isTextVal {v : SqlValue} (h : isTextVal v = true) :
    ∃ s, v = .text s := by
  cases v with
  | int n => simp [isTextVal] at h
  | real s => simp [isTextVal] at h
  | text s => exact ⟨s, rfl⟩

theorem scan_le_of_text {a b : Row} (ha : isTextVal a.pubDate = true)
    (hb : isTextVal b.pubDate = true) (h : rowDesc a b) :
    (scanRow b).pubDate ≤ (scanRow a).pubDate := by
  rcases exists_text_of_isTextVal ha with ⟨s, hs⟩
  rcases exists_text_of_isTextVal hb with ⟨t, ht⟩
  rw [rowDesc, hs, ht] at h
  simpa [scanRow, scanString, hs, ht, sqlLe] using h

theorem insertItems_eq (db : List Row) (items : List Item) :
    insertItems db items = db ++ items.map rowOfItem := by
  induction items generalizing db with
  | nil => simp [insertItems]
  | cons x xs ih => simp [insertItems, insertItem] at *; simp [ih]

theorem pollCycle_eq (payloads : List (List Item)) (db : List Row) :
    pollCycle payloads db = db ++ payloads.flatten.map rowOfItem := by
  induction payloads generalizing db with
  | nil => simp [pollCycle]
  | cons p ps ih =>
    simp only [pollCycle, List.foldl_cons] at *
    rw [insertItems_eq, ih, List.flatten_cons, List.map_append,
      List.append_assoc]

theorem runCycles_eq (payloads : List (List Item)) :
    ∀ (k : Nat) (db : List Row),
      runCycles payloads k db =
        db ++ (List.replicate k (payloads.flatten.map rowOfItem)).flatten := by
  intro k
  induction k with
  | zero => simp [runCycles]
  | succ k ih =>
    intro db
    rw [runCycles, ih, pollCycle_eq, List.replicate_succ, List.flatten_cons,
      List.append_assoc]

theorem count_flatten_replicate (F : List Row) (x : Row) :
    ∀ k : Nat, ((List.replicate k F).flatten).count x = k * F.count x := by
  intro k
  induction k with
  | zero => simp
  | succ k ih =>
    rw [List.replicate_succ, List.flatten_cons, List.count_append, ih]
    ring

/-! ## Claims -/

/-- C1, counterexample: with stored pubDates `"999"` and `"1000"` — pure
integer literals, which the DATETIME column's NUMERIC affinity stores as
INTEGERs 999 and 1000 — `ORDER BY pubDate DESC` returns `"1000"` before
`"999"` (numeric order), while plain lexicographic comparison of the
text puts `"999"` first (indeed `"1000" < "999"` lexicographically):
the returned sequence is not lexicographically descending, refuting the
claimed ordering. -/
theorem c1_counterexample :
    (queryRecent 2 cxDb).map (fun i => i.pubDate) = ["1000", "999"] ∧
    ("1000" : String) < "999" ∧
    ¬ (queryRecent 2 cxDb).Pairwise (fun a b => b.pubDate ≤ a.pubDate) := by
  have hq : queryRecent 2 cxDb =
      [⟨"y", "dy", "http://y10", "1000"⟩, ⟨"x", "dx", "http://x9", "999"⟩] := by
    decide
  have hlt : ("1000" : String) < "999" := by
    rw [String.lt_iff_toList_lt]; decide
  refine ⟨by rw [hq]; rfl, hlt, ?_⟩
  rw [hq]
  intro hpair
  have h1 := List.pairwise_pair.mp hpair
  exact absurd h1 (not_le.mpr hlt)

/-- C1, amended: for every `count` string parsing as a non-negative
integer `n`, `apiHandler` answers with exactly the rows of
`queryRecent n db`, which has exactly `n` elements when `n` does not
exceed the number of stored rows and never more than `n`; the rows are
ordered by the stored `pubDate` values descending under SQLite's value
comparison (affinity-converted numerics compare numerically and sort
before text), which coincides with plain lexicographic descending
comparison of the stored text whenever no stored `pubDate` was a
numeric literal — then every value is verbatim text. -/
theorem c1_amended_sorted_by_stored_values :
    ∀ (db : List Row) (s : String) (n : Int),
      goAtoi s = some n → 0 ≤ n →
      apiHandler s db = (.okJson (some (queryRecent n db)), 1) ∧
      (queryRecent n db).length ≤ n.toNat ∧
      (n.toNat ≤ db.length → (queryRecent n db).length = n.toNat) ∧
      List.Sorted rowDesc (List.insertionSort rowDesc db) ∧
      ((∀ r ∈ db, isTextVal r.pubDate) →
        (queryRecent n db).Pairwise (fun a b => b.pubDate ≤ a.pubDate)) := by
  intro db s n hs hn
  have hnneg : ¬ n < 0 := not_lt.mpr hn
  have hq : queryRecent n db =
      ((List.insertionSort rowDesc db).map scanRow).take n.toNat := by
    simp [queryRecent, hnneg]
  refine ⟨?_, ?_, ?_, List.sorted_insertionSort rowDesc db, ?_⟩
  · simp [apiHandler, hs, foldl_appendSlice]
  · rw [hq]; exact (List.length_take_le _ _)
  · intro hle
    rw [hq, List.length_take, List.length_map, List.length_insertionSort]
    exact Nat.min_eq_left hle
  · intro htext
    have hsorted : (List.insertionSort rowDesc db).Pairwise rowDesc :=
      List.sorted_insertionSort rowDesc db
    have hmem : ∀ r ∈ List.insertionSort rowDesc db, isTextVal r.pubDate :=
      fun r hr => htext r ((List.mem_insertionSort rowDesc).mp hr)
    have hmap : ((List.insertionSort rowDesc db).map scanRow).Pairwise
        (fun a b => b.pubDate ≤ a.pubDate) := by
      rw [List.pairwise_map]
      exact hsorted.imp_of_mem fun ha hb hab =>
        scan_le_of_text (hmem _ ha) (hmem _ hb) hab
    rw [hq]
    exact hmap.sublist (List.take_sublist _ _)

theorem c1_amended_witness :
    apiHandler "2" exDb = (.okJson (some (queryRecent 2 exDb)), 1) ∧
    (queryRecent 2 exDb).length = (2 : Int).toNat ∧
    (queryRecent 2 exDb).Pairwise (fun a b => b.pubDate ≤ a.pubDate) := by
  have h := c1_amended_sorted_by_stored_values exDb "2" 2 (by decide) (by decide)
  have htext : ∀ r ∈ exDb, isTextVal r.pubDate := by
    have hall : exDb.all (fun r => isTextVal r.pubDate) = true := by decide
    exact fun r hr => List.all_eq_true.mp hall r hr
  exact ⟨h.1, h.2.2.1 (by decide), h.2.2.2.2 htext⟩

/-- C2, counterexample: the count string `"-1"` is accepted by
`strconv.Atoi`, so `apiHandler` does query the store (query count 1, not
0) and answers 200 with every stored row (`LIMIT -1` means no bound),
not a client error — refuting the claim that a negative integer count
gets a client-error response with no database read. -/
theorem c2_counterexample :
    goAtoi "-1" = some (-1) ∧
    (apiHandler "-1" exDb).2 = 1 ∧
    statusCode (apiHandler "-1" exDb).1 = 200 ∧
    (apiHandler "-1" exDb).1 = .okJson (some (queryRecent (-1) exDb)) ∧
    (queryRecent (-1) exDb).length = 3 := by
  have hatoi : goAtoi "-1" = some (-1) := by decide
  have hq : queryRecent (-1) exDb = (List.insertionSort rowDesc exDb).map scanRow := by
    simp [queryRecent]
  refine ⟨hatoi, ?_, ?_, ?_, ?_⟩
  · simp [apiHandler, hatoi]
  · simp [apiHandler, hatoi, statusCode]
  · simp [apiHandler, hatoi, foldl_appendSlice]
  · rw [hq, List.length_map, List.length_insertionSort]
    rfl

/-- C2, amended: for every count string that does not parse as an
integer (non-numeric like `"abc"`, empty, with spaces, or out of the
64-bit range) `apiHandler` responds 400 with the plain-text message
`"Invalid count parameter"` and performs no database query; a negative
integer string such as `"-1"`, however, parses successfully and reaches
the store. -/
theorem c2_amended_nonint_rejected_without_query :
    ∀ (s : String) (db : List Row),
      goAtoi s = none →
      apiHandler s db = (.badRequest "Invalid count parameter", 0) ∧
      statusCode (apiHandler s db).1 = 400 ∧
      responseBody (apiHandler s db).1 = "Invalid count parameter\n" := by
  intro s db h
  refine ⟨by simp [apiHandler, h], by simp [apiHandler, h, statusCode], ?_⟩
  simp [apiHandler, h, responseBody]

theorem c2_amended_witness :
    apiHandler "abc" [] = (.badRequest "Invalid count parameter", 0) ∧
    statusCode (apiHandler "abc" []).1 = 400 ∧
    responseBody (apiHandler "abc" []).1 = "Invalid count parameter\n" :=
  c2_amended_nonint_rejected_without_query "abc" [] (by decide)

/-- C3, counterexample: a fetch whose HTTP response has status 404 but
whose body is a well-formed RSS document yields one entry, which is
appended to the store, and emits no log line — refuting the claim that
every non-2xx response is logged and yields zero entries.  (Go's
`http.Get` returns no error on a non-2xx status, and `fetchRSS` never
reads `resp.StatusCode`.) -/
theorem c3_counterexample :
    fetchRSS (.gotBody 404 (.wellFormed feedDoc1)) =
      ([⟨"hello", "d", "http://x", "Mon, 01 Jan 2024 00:00:00 GMT"⟩], []) := rfl

/-- C3, amended: `fetchRSS` never inspects the response status code: a
non-2xx response is processed exactly like a 2xx one with the same body
(entries are appended iff the body unmarshals as RSS); only a transport
error from `http.Get` (and a body-read error) is logged and yields zero
entries, and in every case the function returns normally, so sibling
fetches and the poll cycle are unaffected. -/
theorem c3_amended_status_code_ignored :
    (∀ (status status' : Nat) (body : XmlBody),
       fetchRSS (.gotBody status body) = fetchRSS (.gotBody status' body)) ∧
    fetchRSS .getError = ([], [.fetchUrlError]) ∧
    (∀ status : Nat, fetchRSS (.readError status) = ([], [.readBodyError])) := by
  refine ⟨?_, rfl, fun _ => rfl⟩
  intro status status' body
  cases body <;> rfl

/-- C4, counterexample: an item whose `pubDate` is the text `"01"` — a
pure integer literal — is converted by the DATETIME column's NUMERIC
affinity on insert: the stored value is INTEGER 1, and `queryRecent`
scans it back as `"1"`, which is not character-for-character equal to
the appended string `"01"` — refuting verbatim text persistence for
every pubDate. -/
theorem c4_counterexample :
    applyNumericAffinity "01" = .int 1 ∧
    queryRecent 1 (insertItems [] [cxItem01]) = [⟨"t", "d", "http://l", "1"⟩] ∧
    ("1" : String) ≠ "01" := by
  refine ⟨by decide, by decide, by decide⟩

/-- C4, amended: provided no appended `pubDate` string is a well-formed
SQLite numeric literal, every value is persisted verbatim as text — the
stored `pubDate` column equals the appended strings — and every row
read back by `queryRecent` is character-for-character one of the
appended items (reading back as many rows as were appended returns a
permutation of exactly the appended items).  A numeric-literal
`pubDate` is instead converted by the DATETIME column's NUMERIC
affinity, as the counterexample `"01"` (stored INTEGER 1, read back
`"1"`) shows; typical feed date strings are not numeric literals. -/
theorem c4_amended_verbatim_unless_numeric :
    ∀ (db : List Row) (items : List Item) (n : Int),
      (∀ it ∈ items, classifyNumericText it.pubDate = .notNum) →
      (insertItems db items).map (fun r => r.pubDate) =
        db.map (fun r => r.pubDate) ++ items.map (fun it => .text it.pubDate) ∧
      (∀ r ∈ queryRecent n (insertItems [] items), r ∈ items) ∧
      (queryRecent (items.length : Int) (insertItems [] items)).Perm items := by
  intro db items n hnum
  have hbase : insertItems [] items = items.map rowOfItem := by
    simp [insertItems_eq]
  have hscan : (items.map rowOfItem).map scanRow = items := by
    rw [List.map_map]
    have h : ∀ it ∈ items, (scanRow ∘ rowOfItem) it = id it :=
      fun it hit => scanRow_rowOfItem it (hnum it hit)
    rw [List.map_congr_left h, List.map_id]
  refine ⟨?_, ?_, ?_⟩
  · rw [insertItems_eq, List.map_append, List.map_map]
    congr 1
    exact List.map_congr_left fun it hit => by
      simp [Function.comp, rowOfItem_pubDate_text it (hnum it hit)]
  · intro r hr
    rw [hbase] at hr
    have hr' : r ∈ (List.insertionSort rowDesc (items.map rowOfItem)).map scanRow := by
      rcases lt_or_le n 0 with h | h
      · simpa [queryRecent, h] using hr
      · have h' : ¬ n < 0 := not_lt.mpr h
        simp only [queryRecent, h', if_false] at hr
        exact (List.take_sublist _ _).subset hr
    rcases List.mem_map.mp hr' with ⟨row, hrow, hrs⟩
    have hrow' : row ∈ items.map rowOfItem :=
      (List.mem_insertionSort rowDesc).mp hrow
    rcases List.mem_map.mp hrow' with ⟨it, hit, hito⟩
    rw [← hrs, ← hito, scanRow_rowOfItem it (hnum it hit)]
    exact hit
  · rw [hbase]
    have hlen : ¬ ((items.length : Int) < 0) := not_lt.mpr (Int.natCast_nonneg _)
    have hq : queryRecent (items.length : Int) (items.map rowOfItem) =
        ((List.insertionSort rowDesc (items.map rowOfItem)).map scanRow).take
          (items.length : Int).toNat := by
      simp [queryRecent, hlen]
    have hle : ((List.insertionSort rowDesc (items.map rowOfItem)).map scanRow).length =
        items.length := by
      rw [List.length_map, List.length_insertionSort, List.length_map]
    rw [hq, Int.toNat_natCast, List.take_of_length_le (le_of_eq hle)]
    have hperm : List.Perm
        ((List.insertionSort rowDesc (items.map rowOfItem)).map scanRow)
        ((items.map rowOfItem).map scanRow) :=
      (List.perm_insertionSort rowDesc _).map scanRow
    rw [hscan] at hperm
    exact hperm

theorem c4_amended_witness : exItemA ∈ [exItemA] :=
  (c4_amended_verbatim_unless_numeric [] [exItemA] 1
    (by
      intro it hit
      rw [List.mem_singleton] at hit
      subst hit
      decide)).2.1 exItemA
    (by
      have hq : queryRecent 1 (insertItems [] [exItemA]) = [exItemA] := by decide
      rw [hq]
      exact List.mem_singleton_self _)

/-- C5: the failing input.  With `period = 0` the scheduler builds the
tick interval `time.Duration(0) * time.Minute = 0` and hands it straight
to `time.NewTicker`, which panics with `"non-positive interval for
NewTicker"`, crashing the process — there is no guard that rejects or
floors a non-positive period. -/
theorem c5_zero_period_panics :
    tickerInterval 0 = 0 ∧
    pollFeedsTicker { feeds := ["http://example.com/feed"], period := 0 } =
      .error "non-positive interval for NewTicker" := by
  refine ⟨by decide, rfl⟩

/-- C6: `unmarshalRSS` yields exactly one entry per `<item>` element
found under `<channel>`, in document order; an item missing a sub-field
keeps that field as empty text and is never dropped.  In particular the
example feed with three complete items and one item missing its title
yields four entries, the fourth with title `""`. -/
theorem c6_one_entry_per_item_missing_fields_empty :
    ∀ root : XmlNode,
      (unmarshalRSS root).channel.items =
        (channelItemNodes root).map (fun n => decodeItem (childrenOf n)) ∧
      (unmarshalRSS root).channel.items.length = (channelItemNodes root).length ∧
      (∀ ns : List XmlNode, elemsNamed "title" ns = [] → (decodeItem ns).title = "") ∧
      (unmarshalRSS exDoc4).channel.items.length = 4 ∧
      (unmarshalRSS exDoc4).channel.items.map (fun i => i.title) =
        ["t1", "t2", "t3", ""] := by
  intro root
  refine ⟨rfl, by simp [unmarshalRSS], ?_, rfl, rfl⟩
  intro ns h
  simp [decodeItem, fieldText, h]

theorem c6_witness : (decodeItem []).title = "" :=
  (c6_one_entry_per_item_missing_fields_empty exDoc4).2.2.1 [] rfl

/-- C7: a response body that is not well-formed XML makes
`xml.Unmarshal` fail, so `fetchRSS` logs the unmarshal error and yields
zero entries, whatever the status code; the function returns normally,
so neither the poll cycle nor the process terminates. -/
theorem c7_malformed_body_zero_entries :
    ∀ status : Nat,
      fetchRSS (.gotBody status .malformed) = ([], [.xmlUnmarshalError]) :=
  fun _ => rfl

/-- C8: a request with count `0` answers 200 with the empty (non-nil)
slice, serialized as the JSON array `[]`, for every store; a request
whose count parses, over an empty store, likewise answers the empty
slice; and the top-level serialization of the empty slice is `"[]"`,
never `"null"` and never an error. -/
theorem c8_zero_count_or_empty_store_empty_array :
    (∀ db : List Row,
       apiHandler "0" db = (.okJson (some []), 1) ∧
       responseBody (apiHandler "0" db).1 = "[]\n") ∧
    (∀ (s : String) (n : Int), goAtoi s = some n →
       apiHandler s [] = (.okJson (some []), 1)) ∧
    sliceJson (some []) = "[]" := by
  refine ⟨?_, ?_, rfl⟩
  · intro db
    have h0 : goAtoi "0" = some 0 := by decide
    have hq : queryRecent 0 db = [] := by
      simp [queryRecent]
    have happ : apiHandler "0" db = (.okJson (some []), 1) := by
      simp [apiHandler, h0, hq]
    exact ⟨happ, by rw [happ]; decide⟩
  · intro s n hs
    have hq : queryRecent n [] = [] := by
      have h0 : List.insertionSort rowDesc ([] : List Row) = [] := rfl
      simp [queryRecent, h0]
    simp [apiHandler, hs, hq]

theorem c8_witness : apiHandler "7" [] = (.okJson (some []), 1) :=
  c8_zero_count_or_empty_store_empty_array.2.1 "7" 7 (by decide)

/-- C9: polling an unchanged set of feed payloads is not idempotent:
each further cycle appends the rows of the full flattened payload again,
and after `k` cycles from an empty store every row occurs `k` times as
often as in one payload's inserted rows — no deduplication by any
key. -/
theorem c9_repeated_cycles_duplicate :
    ∀ (payloads : List (List Item)) (k : Nat) (r : Row),
      runCycles payloads (k + 1) [] =
        runCycles payloads k [] ++ payloads.flatten.map rowOfItem ∧
      (runCycles payloads k []).count r =
        k * (payloads.flatten.map rowOfItem).count r := by
  intro payloads k r
  constructor
  · rw [runCycles_eq, runCycles_eq, List.replicate_succ', List.flatten_append]
    simp
  · rw [runCycles_eq]
    simpa using count_flatten_replicate (payloads.flatten.map rowOfItem) r k

/-- C10: the ticker delivers its first tick only after one full interval,
so for any time `t` strictly before the interval `d` no poll cycle has
started and the store is still empty — no fetch output is written before
one full poll period has elapsed after startup. -/
theorem c10_no_write_before_first_tick :
    ∀ (d t : Nat) (payloads : List (List Item)),
      0 < d → t < d →
      ticksWithin d t = 0 ∧ storeAt d t payloads = [] := by
  intro d t payloads hd ht
  have h0 : t / d = 0 := Nat.div_eq_of_lt ht
  exact ⟨h0, by simp [storeAt, ticksWithin, h0, runCycles]⟩

theorem c10_witness :
    ticksWithin 60 59 = 0 ∧ storeAt 60 59 [] = [] :=
  c10_no_write_before_first_tick 60 59 [] (by decide) (by decide)

end NewsRss
